import Mathlib

/-!
Shallow embedding of the disclosure-page discovery engine and the TTL
analysis cache of the `backend-whatdataiamgiving` repository
(`app/utils/terms_and_condition_utils.py` and
`app/services/analysis_cache.py`), together with theorems settling the
specification claims about them.

External boundaries (the HTTP client, the HTML parser, the document
store's time source) are modelled as explicit function parameters or as
integer timestamps; everything the repository's own code computes is
translated definition by definition.
-/

/-! ## String primitives

Python string operations used by the source (`in`, `.lower()`,
`.startswith`) modelled on the character list underlying a `String`. -/

/-- Boolean test that `needle` is a leading segment of `hay`. -/
def leads_list : List Char → List Char → Bool
  | [], _ => true
  | _ :: _, [] => false
  | c :: cs, d :: ds => c == d && leads_list cs ds

/-- Boolean test that `needle` occurs contiguously inside `hay`
(Python's `needle in hay`). -/
def sub_list (needle : List Char) : List Char → Bool
  | [] => needle.isEmpty
  | d :: ds => leads_list needle (d :: ds) || sub_list needle ds

/-- Python `needle in hay` on strings. -/
def hasSubStr (hay needle : String) : Bool :=
  sub_list needle.data hay.data

/-- Python `s.startswith(p)`. -/
def startsWithStr (s p : String) : Bool :=
  leads_list p.data s.data

/-- Python `s.lower()` (per-character lowercasing; adequate for the
ASCII and already-lowercase accented characters the engine handles). -/
def lowerStr (s : String) : String :=
  ⟨s.data.map Char.toLower⟩

/-! ## URL helpers

Models of `urllib.parse.urlparse(url).netloc` and
`urllib.parse.urljoin` restricted to the URL shapes the engine
manipulates (http/https URLs, root-relative, document-relative and
foreign-scheme hrefs). -/

/-- Characters of `l` remaining after the first occurrence of `sep`;
`none` when `sep` does not occur. -/
def drop_through (sep : List Char) : List Char → Option (List Char)
  | [] => if sep.isEmpty then some [] else none
  | c :: cs =>
    if leads_list sep (c :: cs) then some (List.drop (sep.length - 1) cs)
    else drop_through sep cs

/-- `urlparse(url).netloc`: the host part between the `://` separator
and the next `/`, `?` or `#` (empty when there is no separator). -/
def netloc (url : String) : String :=
  match drop_through "://".data url.data with
  | some rest => ⟨rest.takeWhile (fun c => !(c == '/' || c == '?' || c == '#'))⟩
  | none => ""

/-- Scheme of a URL: the characters before the first colon. -/
def scheme_of (url : String) : String :=
  ⟨url.data.takeWhile (fun c => !(c == ':'))⟩

/-- The `scheme://host` part of a URL. -/
def scheme_netloc (url : String) : String :=
  scheme_of url ++ "://" ++ netloc url

/-- Python truthiness/scheme filter used by the extractor:
`full_url.startswith(("http://", "https://"))`. -/
def scheme_ok (u : String) : Bool :=
  startsWithStr u "http://" || startsWithStr u "https://"

/-- True when a colon appears before any slash, i.e. the href carries
its own (possibly non-http) scheme, as in `mailto:` links. -/
def colon_before_slash (href : String) : Bool :=
  (href.data.takeWhile (fun c => !(c == '/'))).contains ':'

/-- Base URL truncated to its last path segment boundary, for joining
document-relative references. -/
def base_dir (base : String) : String :=
  match drop_through "://".data base.data with
  | some rest =>
    if rest.contains '/' then ⟨(base.data.reverse.dropWhile (fun c => !(c == '/'))).reverse⟩
    else base ++ "/"
  | none => base ++ "/"

/-- Model of `urllib.parse.urljoin(base, href)` for the href shapes the
engine meets: empty, absolute http(s), scheme-relative, foreign-scheme,
root-relative and document-relative. -/
def urljoin (base href : String) : String :=
  if href = "" then base
  else if scheme_ok href then href
  else if colon_before_slash href then href
  else if startsWithStr href "//" then scheme_of base ++ ":" ++ href
  else if startsWithStr href "/" then scheme_netloc base ++ href
  else base_dir base ++ href

/-! ## Relevance scorer (`_calculate_relevance_score`) -/

/-- High priority exact patterns from the source. -/
def high_priority : List String :=
  ["terms of service", "terms and conditions", "terms & conditions",
   "privacy policy", "privacy notice", "data policy",
   "cookie policy", "cookies policy"]

/-- Medium priority patterns from the source. -/
def medium_priority : List String :=
  ["terms", "conditions", "privacy", "legal", "policy",
   "agreement", "cookies", "data protection"]

/-- French high priority patterns from the source. -/
def french_high : List String :=
  ["conditions générales", "conditions d\x27utilisation", "mentions légales",
   "politique de confidentialité", "politique des données",
   "politique des cookies", "gestion des cookies"]

/-- French medium priority patterns from the source. -/
def french_medium : List String :=
  ["conditions", "confidentialité", "données", "cookies",
   "mentions", "légales", "politique", "cgv", "cgu"]

/-- Penalty patterns from the source. -/
def penalty_patterns : List String :=
  ["contact", "about", "help", "support", "news", "blog",
   "careers", "jobs", "press", "media", "investor"]

/-- Footer/legal placement indicators from the source. -/
def footer_indicators : List String := ["footer", "legal", "bottom"]

/-- The accumulated score of `_calculate_relevance_score` before the
final `max(0, score)` clamp: additive presence-based contributions of
each pattern group on the lowercased text and URL. -/
def raw_relevance_score (url link_text : String) : Int :=
  let u := lowerStr url
  let t := lowerStr link_text
  (((high_priority ++ french_high).map (fun p =>
      (if hasSubStr t p then (100 : Int) else 0) +
      (if hasSubStr u p then (80 : Int) else 0))).sum)
  + (((medium_priority ++ french_medium).map (fun p =>
      (if hasSubStr t p then (50 : Int) else 0) +
      (if hasSubStr u p then (30 : Int) else 0))).sum)
  + (if hasSubStr u "/terms" || hasSubStr u "/privacy" then (40 : Int) else 0)
  + (if hasSubStr u "/legal" || hasSubStr u "/policy" then (30 : Int) else 0)
  + (if hasSubStr u "/cookies" then (25 : Int) else 0)
  + ((penalty_patterns.map (fun p =>
      if hasSubStr t p || hasSubStr u p then (-20 : Int) else 0)).sum)
  + (if footer_indicators.any (fun p => hasSubStr t p) then (10 : Int) else 0)

/-- `_calculate_relevance_score(url, link_text)`: the raw additive
score clamped to be non-negative. -/
def calculate_relevance_score (url link_text : String) : Int :=
  max 0 (raw_relevance_score url link_text)

/-! ## Candidate selection (`_select_most_relevant_urls`) -/

/-- One scored candidate: `(score, url, link_text)`. -/
def Scored := Int × String × String

/-- Stable descending insertion used to model Python's stable
`list.sort(key=score, reverse=True)`: an element overtakes only
strictly lower scores, so equal scores keep their original order. -/
def insert_scored_desc (x : Scored) : List Scored → List Scored
  | [] => [x]
  | y :: ys => if x.1 ≥ y.1 then x :: y :: ys else y :: insert_scored_desc x ys

/-- Stable descending sort by score. -/
def sort_scored_desc : List Scored → List Scored
  | [] => []
  | x :: xs => insert_scored_desc x (sort_scored_desc xs)

/-- The positively scored candidates in input order, as built by the
loop of `_select_most_relevant_urls`. -/
def scored_list (found_urls : List (String × String)) : List Scored :=
  found_urls.filterMap (fun p =>
    let s := calculate_relevance_score p.1 p.2
    if s > 0 then some (s, p.1, p.2) else none)

/-- `_select_most_relevant_urls(found_urls)`: keep positive scores,
stable-sort descending, return at most the single best URL. -/
def select_most_relevant_urls (found_urls : List (String × String)) : List String :=
  match found_urls with
  | [] => []
  | _ :: _ =>
    match sort_scored_desc (scored_list found_urls) with
    | [] => []
    | (_, u, _) :: _ => [u]

/-- Earliest maximal-score element of a scored list (specification
device for the stable sort's head). -/
def first_max : List Scored → Option Scored
  | [] => none
  | x :: xs =>
    match first_max xs with
    | none => some x
    | some m => if x.1 ≥ m.1 then some x else some m

/-! ## Link candidate extractor (`find_terms_links`, lines 152-194) -/

/-- Keyword vocabulary of the extractor (`terms_patterns`). -/
def terms_patterns : List String :=
  ["terms", "condition", "privacy", "policy", "legal",
   "agreement", "données", "confidentialité", "mentions",
   "cookies", "politique", "cgv", "cgu"]

/-- The extractor's candidate test: some vocabulary pattern occurs in
the lowercased visible text or in the lowercased raw href. -/
def is_terms_link (link_text href : String) : Bool :=
  terms_patterns.any (fun p => hasSubStr (lowerStr link_text) p) ||
  terms_patterns.any (fun p => hasSubStr (lowerStr href) p)

/-- Per-anchor step of the extraction loop: skip empty hrefs, resolve
against the base URL, skip non-http(s) results, keep pattern matches. -/
def candidate_of (base_url : String) (a : String × String) : Option (String × String) :=
  let href := a.1
  let text := a.2
  if href = "" then none
  else
    let full_url := urljoin base_url href
    if scheme_ok full_url then
      if is_terms_link text href then some (full_url, text) else none
    else none

/-- Candidate links of a page: matching anchors resolved to absolute
URLs, with same-domain (internal) candidates listed before
cross-domain (external) ones, as in `internal_links + external_links`. -/
def extract_candidates (base_url : String) (anchors : List (String × String)) :
    List (String × String) :=
  (anchors.filterMap (candidate_of base_url)).filter
      (fun c => lowerStr (netloc c.1) == lowerStr (netloc base_url)) ++
    (anchors.filterMap (candidate_of base_url)).filter
      (fun c => !(lowerStr (netloc c.1) == lowerStr (netloc base_url)))

/-- `_follow_terms_link(link_url)`: the resolution oracle's final URL
when non-empty, otherwise the original URL (failed resolutions fall
back to the unresolved candidate). -/
def follow_terms_link (follow : String → String) (link_url : String) : String :=
  let f := follow link_url
  if f ≠ "" then f else link_url

/-! ## Fallback prober (`_try_common_terms_urls`) -/

/-- The fixed conventional-path list probed by the fallback. -/
def common_patterns : List String :=
  ["/terms", "/terms-of-service", "/terms-and-conditions", "/tos",
   "/privacy", "/privacy-policy", "/privacy-notice",
   "/legal", "/legal-notice", "/legal-information",
   "/cookies", "/cookie-policy", "/cookie-notice",
   "/mentions-legales", "/politique-confidentialite", "/politique-cookies",
   "/conditions-generales", "/conditions-utilisation", "/cgv", "/cgu",
   "/politique-donnees", "/confidentialite", "/donnees-personnelles",
   "/legal/terms", "/legal/privacy", "/legal/cookies",
   "/accueil/politique-cookies", "/accueil/mentions-legales",
   "/fr/legal", "/fr/privacy", "/fr/mentions-legales"]

/-- Synthesized anchor text for a probed pattern, mirroring the
`if/elif` chain of the source. -/
def fallback_link_text (pattern : String) : String :=
  if hasSubStr pattern "privacy" || hasSubStr pattern "confidentialite" then "Privacy Policy"
  else if hasSubStr pattern "cookie" then "Cookie Policy"
  else if hasSubStr pattern "mention" then "Mentions Légales"
  else if hasSubStr pattern "terms" || hasSubStr pattern "condition" then "Terms & Conditions"
  else "Legal Information"

/-- `_try_common_terms_urls(base_url)` with the network abstracted as
`probe`: `probe u = some v` models an HTTP 200 answer whose
post-redirect URL is `v`, `none` models any non-200 or error (which
the loop swallows). -/
def try_common_terms_urls (probe : String → Option String) (base_url : String) :
    List (String × String) :=
  common_patterns.filterMap (fun pattern =>
    match probe (urljoin base_url pattern) with
    | some final_url => some (final_url, fallback_link_text pattern)
    | none => none)

/-! ## Discovery composition (`find_terms_links`) -/

/-- `find_terms_links(base_url, html_content)`: extract candidates from
the parsed anchors, resolve each through the fetcher, fall back to the
conventional-path prober only when no resolved link exists, then select
the single most relevant URL.  `parse` abstracts BeautifulSoup's
anchor extraction (pairs `(href, visible_text)`), `follow` the
redirect-resolution fetch, `probe` the prober's HTTP client. -/
def find_terms_links (base_url html_content : String)
    (parse : String → List (String × String))
    (follow : String → String) (probe : String → Option String) : List String :=
  let all_candidate_links := extract_candidates base_url (parse html_content)
  let final_links := all_candidate_links.filterMap (fun c =>
    let final_url := follow_terms_link follow c.1
    if final_url ≠ "" then some (final_url, c.2) else none)
  let with_fallback :=
    if final_links.isEmpty then try_common_terms_urls probe base_url else final_links
  select_most_relevant_urls with_fallback

/-! ## Friendly error messages (`_get_friendly_error_message`) -/

/-- Error categories distinguished by `_get_friendly_error_message`'s
`error_type` argument. -/
inductive ErrorKind
  | http
  | timeoutKind
  | connection
  | ssl
  | generic
deriving DecidableEq

/-- `_get_friendly_error_message(url, status_code, error_type)`:
messages templated with the lowercased netloc of the failing URL. -/
def get_friendly_error_message (url : String) (status_code : Option Nat)
    (error_type : ErrorKind) : String :=
  let domain := lowerStr (netloc url)
  match error_type, status_code with
  | .http, some code =>
    if code = 0 then "❌ Unable to access " ++ domain ++ ". The website may be temporarily unavailable."
    else if code = 403 then "🛡️ Access denied by " ++ domain ++ ". The website blocks automated requests."
    else if code = 404 then "🔍 Page not found on " ++ domain ++ ". The URL may have changed or been removed."
    else if code = 429 then "⏰ Rate limited by " ++ domain ++ ". Too many requests - please try again later."
    else if code = 503 then "🔧 Service unavailable on " ++ domain ++ ". The website may be under maintenance."
    else if code = 500 ∨ code = 502 ∨ code = 504 then
      "🖥️ Server error on " ++ domain ++ " (HTTP " ++ toString code ++ "). The website is experiencing technical issues."
    else if 400 ≤ code ∧ code < 500 then
      "⚠️ Client error when accessing " ++ domain ++ " (HTTP " ++ toString code ++ "). The request was rejected."
    else if 500 ≤ code ∧ code < 600 then
      "🖥️ Server error on " ++ domain ++ " (HTTP " ++ toString code ++ "). The website has internal issues."
    else "❌ HTTP error " ++ toString code ++ " when accessing " ++ domain ++ "."
  | .timeoutKind, _ => "⏱️ Request timeout for " ++ domain ++ ". The server took too long to respond."
  | .connection, _ => "🔌 Connection failed to " ++ domain ++ ". Check your internet connection or try again later."
  | .ssl, _ => "🔒 SSL/TLS error when connecting to " ++ domain ++ ". The website has certificate issues."
  | _, _ => "❌ Unable to access " ++ domain ++ ". The website may be temporarily unavailable."

/-! ## Resilient fetcher (`_make_request_with_retry`)

The network is abstracted as `att : Nat → AttemptOutcome`, the outcome
the HTTP client would deliver on the n-th attempt.  The randomized
inter-retry sleep affects timing only, never the returned value, so it
does not appear in the value-level model. -/

/-- Outcome of one HTTP attempt, matching the source's exception
arms: success, `HTTPStatusError`, `TimeoutException`, `ConnectError`,
an SSL-flavoured generic exception, or any other exception. -/
inductive AttemptOutcome
  | success (final_url body : String)
  | httpErr (code : Nat)
  | timeoutErr
  | connErr
  | sslErr
  | genericErr
deriving DecidableEq

/-- The triple `(final_url, html_content, error_message)` returned by
the fetcher. -/
def FetchTriple := String × String × Option String

/-- The retry loop body, structurally recursive on the remaining
`fuel` (`retries + 1 - attempt` iterations of `range(retries + 1)`);
the fuel-exhausted arm is the function's trailing generic return. -/
def run_attempts (att : Nat → AttemptOutcome) (url : String) (retries : Nat) :
    Nat → Nat → FetchTriple
  | 0, _ => ("", "", some (get_friendly_error_message url none .generic))
  | fuel + 1, attempt =>
    match att attempt with
    | .success u b => (u, b, none)
    | .httpErr code =>
      if code = 403 then
        if attempt = retries then
          ("", "", some (get_friendly_error_message url (some 403) .http))
        else run_attempts att url retries fuel (attempt + 1)
      else if code = 429 then
        if attempt < retries then run_attempts att url retries fuel (attempt + 1)
        else ("", "", some (get_friendly_error_message url (some 429) .http))
      else ("", "", some (get_friendly_error_message url (some code) .http))
    | .timeoutErr =>
      if attempt < retries then run_attempts att url retries fuel (attempt + 1)
      else ("", "", some (get_friendly_error_message url none .timeoutKind))
    | .connErr => ("", "", some (get_friendly_error_message url none .connection))
    | .sslErr => ("", "", some (get_friendly_error_message url none .ssl))
    | .genericErr => ("", "", some (get_friendly_error_message url none .generic))

/-- `_make_request_with_retry(url, retries)` over the attempt oracle. -/
def make_request_with_retry (att : Nat → AttemptOutcome) (url : String)
    (retries : Nat := 2) : FetchTriple :=
  run_attempts att url retries (retries + 1) 0

/-- Whether an attempt outcome is one the loop is willing to retry
(HTTP 403, HTTP 429, network timeout). -/
def retry_decision (a : AttemptOutcome) : Bool :=
  match a with
  | .httpErr 403 => true
  | .httpErr 429 => true
  | .timeoutErr => true
  | _ => false

/-- Index of the attempt at which the loop stops: the first attempt
whose outcome is not retryable, capped at the final attempt `retries`. -/
def stop_from (att : Nat → AttemptOutcome) (retries : Nat) : Nat → Nat → Nat
  | 0, attempt => attempt
  | fuel + 1, attempt =>
    if retry_decision (att attempt) && decide (attempt < retries) then
      stop_from att retries fuel (attempt + 1)
    else attempt

/-- First attempt index at which `_make_request_with_retry` stops. -/
def stop_index (att : Nat → AttemptOutcome) (retries : Nat) : Nat :=
  stop_from att retries (retries + 1) 0

/-- The value the fetcher returns for the outcome of its stopping
attempt. -/
def classify_stop (url : String) (a : AttemptOutcome) : FetchTriple :=
  match a with
  | .success u b => (u, b, none)
  | .httpErr code => ("", "", some (get_friendly_error_message url (some code) .http))
  | .timeoutErr => ("", "", some (get_friendly_error_message url none .timeoutKind))
  | .connErr => ("", "", some (get_friendly_error_message url none .connection))
  | .sslErr => ("", "", some (get_friendly_error_message url none .ssl))
  | .genericErr => ("", "", some (get_friendly_error_message url none .generic))

/-! ## Discovery orchestrator (`check_terms_exist`) -/

/-- The `TermsCheckResponse` model returned by `check_terms_exist`. -/
structure TermsCheckResponse where
  url : String
  has_terms : Bool
  found_terms_pages : List String
  error : Option String
deriving DecidableEq

/-- `check_terms_exist(url)`.  `att` feeds the root fetch, `parse`,
`follow` and `probe` feed `find_terms_links`; `exc = some e` models an
exception raised inside the `try` block and caught by the trailing
handler, which formats the message with the full input URL. -/
def check_terms_exist (url : String) (att : Nat → AttemptOutcome)
    (parse : String → List (String × String))
    (follow : String → String) (probe : String → Option String)
    (exc : Option String) : TermsCheckResponse :=
  match exc with
  | some e => ⟨url, false, [], some ("Error checking " ++ url ++ ": " ++ e)⟩
  | none =>
    let r := make_request_with_retry att url 2
    let html_content := r.2.1
    let error_msg := r.2.2
    if html_content = "" then
      match error_msg with
      | some e => ⟨url, false, [], some e⟩
      | none => ⟨url, false, [], some (get_friendly_error_message url none .generic)⟩
    else
      let terms_links := find_terms_links url html_content parse follow probe
      ⟨url, decide (terms_links.length > 0), terms_links, none⟩

/-! ## TTL cache store (`analysis_cache.py`)

The MongoDB collection is modelled as a list of documents; `find_one`
returns the first match, `replace_one` replaces the first match (or
appends when `upsert=True` finds none), `delete_many` filters, and
`count_documents` counts.  Instants are UTC timestamps in seconds
represented as integers. -/

/-- A cached analysis document (`WebsiteAnalysisDocument`): the unique
`url` key, the sequential `analysis_id`, the two timestamps and an
opaque analysis payload. -/
structure CacheDoc where
  url : String
  analysis_id : Nat
  created_at : Int
  expires_at : Int
  payload : String
deriving DecidableEq

/-- The 90-day cache TTL (`timedelta(days=90)`) in seconds. -/
def ttl_seconds : Int := 90 * 86400

/-- Largest `analysis_id` present in the store (0 when empty); the id
carried by `find_one({}, sort=[("analysis_id", -1)])`. -/
def max_analysis_id (store : List CacheDoc) : Nat :=
  (store.map (fun d => d.analysis_id)).foldr max 0

/-- The id allocation of `save_analysis`: `1` on an empty store,
otherwise the maximal existing id plus one. -/
def next_analysis_id (store : List CacheDoc) : Nat :=
  match store with
  | [] => 1
  | _ :: _ => max_analysis_id store + 1

/-- `replace_one({"url": url}, doc, upsert=True)`: replace the first
document matching the key, or append when none matches. -/
def replace_one (store : List CacheDoc) (url : String) (doc : CacheDoc) : List CacheDoc :=
  match store with
  | [] => [doc]
  | d :: ds => if d.url = url then doc :: ds else d :: replace_one ds url doc

/-- `save_analysis(analysis)` at instant `now`: allocate the next
sequential id, stamp `created_at = now` and `expires_at = now + ttl`,
and upsert by URL. -/
def save_analysis (store : List CacheDoc) (now : Int) (url payload : String) :
    List CacheDoc :=
  let doc : CacheDoc :=
    ⟨url, next_analysis_id store, now, now + ttl_seconds, payload⟩
  replace_one store url doc

/-- `get_cached_analysis(url)` at instant `now`: the first document
matching the URL whose `expires_at` is strictly in the future. -/
def get_cached_analysis (store : List CacheDoc) (now : Int) (url : String) :
    Option CacheDoc :=
  store.find? (fun d => d.url == url && decide (now < d.expires_at))

/-- The status record assembled by `get_cache_info`. -/
structure CacheInfo where
  cached : Bool
  expired : Bool
  analysis_id : Option Nat
deriving DecidableEq

/-- `get_cache_info(url)` at instant `now`: status irrespective of
expiry; `expired` holds only when `expires_at` is strictly before
`now`. -/
def get_cache_info (store : List CacheDoc) (now : Int) (url : String) : CacheInfo :=
  match store.find? (fun d => d.url == url) with
  | none => ⟨false, false, none⟩
  | some d => ⟨true, decide (d.expires_at < now), some d.analysis_id⟩

/-- `clear_expired_cache()` at instant `now`:
`delete_many({"expires_at": {"$lt": now}})`; returns the surviving
store and the deleted count. -/
def clear_expired_cache (store : List CacheDoc) (now : Int) : List CacheDoc × Nat :=
  ((store.filter (fun d => !decide (d.expires_at < now))),
   store.countP (fun d => decide (d.expires_at < now)))

/-- The statistics record assembled by `get_cache_stats`. -/
structure CacheStats where
  total_entries : Nat
  valid_entries : Nat
  expired_entries : Nat
deriving DecidableEq

/-- `get_cache_stats()` at instant `now`: total count, count of
documents with `expires_at` strictly in the future, and their
difference. -/
def get_cache_stats (store : List CacheDoc) (now : Int) : CacheStats :=
  let total := store.length
  let valid := store.countP (fun d => decide (now < d.expires_at))
  ⟨total, valid, total - valid⟩

/-! ## Claim-side comparison definition for the extractor vocabulary -/

/-- Modelled from the spec: the claim's candidate test, for comparison
with the extractor.  The spec's bilingual vocabulary (terms,
conditions, privacy, policy, legal, agreement, cookies, cgu, cgv,
politique, mentions, données, confidentialité, protection, accord,
utilisation, juridique), matched case-insensitively against the
visible text or the resolved href. -/
def claim_vocabulary : List String :=
  ["terms", "conditions", "privacy", "policy", "legal", "agreement",
   "cookies", "cgu", "cgv", "politique", "mentions", "données",
   "confidentialité", "protection", "accord", "utilisation", "juridique"]

/-- Modelled from the spec: a link is a candidate when its visible
text or its resolved href contains, case-insensitively, at least one
claim-vocabulary term. -/
def claim_is_candidate (base_url text href : String) : Bool :=
  claim_vocabulary.any (fun p =>
    hasSubStr (lowerStr text) p || hasSubStr (lowerStr (urljoin base_url href)) p)

/-! ## Concrete inputs used by witnesses and counterexamples -/

/-- Candidate list with one positively scoring and one penalized
anchor, for exercising the selection contract. -/
def demo_selection : List (String × String) :=
  [("http://a.b/privacy", "Privacy Policy"), ("http://a.b/careers", "Careers")]

/-- One-document store whose entry is strictly expired at instant 100. -/
def demo_store_sweep_ok : List CacheDoc := [⟨"u", 1, 0, 99, "p"⟩]

/-- Parser stub: one anchor whose text matches the extractor vocabulary
(pattern `condition`) but scores zero. -/
def demo_parse : String → List (String × String) := fun _ => [("/x", "condition")]

/-- Resolution stub: every follow-up fetch fails, so candidates keep
their original URLs. -/
def demo_follow : String → String := fun _ => ""

/-- Probe stub: exactly the conventional `/terms` path answers 200. -/
def demo_probe : String → Option String := fun u =>
  if u = "http://example.org/terms" then some u else none

/-- Attempt oracle: first attempt rate limited, second succeeds. -/
def demo_att : Nat → AttemptOutcome := fun n =>
  if n = 0 then .httpErr 429 else .success "http://example.org/" "<html></html>"

/-- One-document store whose entry was created at 0 with the 90-day
TTL. -/
def demo_store_save : List CacheDoc := [⟨"u", 1, 0, 7776000, "p"⟩]

/-- One-document store whose entry expires exactly at instant 100. -/
def demo_store_sweep : List CacheDoc := [⟨"u", 1, 0, 100, "p"⟩]

/-- One-document store whose entry expires exactly at instant 50. -/
def demo_store_boundary : List CacheDoc := [⟨"u", 1, 0, 50, "p"⟩]

/-! ## String lemmas -/

theorem string_data_append (s t : String) : (s ++ t).data = s.data ++ t.data := by
  rcases s with ⟨a⟩
  rcases t with ⟨b⟩
  rfl

theorem lowerStr_append (s t : String) : lowerStr (s ++ t) = lowerStr s ++ lowerStr t := by
  rcases s with ⟨a⟩
  rcases t with ⟨b⟩
  show String.mk _ = String.mk _
  rw [string_data_append]
  simp [List.map_append]

theorem leads_list_append {n h : List Char} (t : List Char)
    (hn : leads_list n h = true) : leads_list n (h ++ t) = true := by
  induction n generalizing h with
  | nil => simp [leads_list]
  | cons c cs ih =>
    cases h with
    | nil => simp [leads_list] at hn
    | cons d ds =>
      simp only [leads_list, Bool.and_eq_true] at hn
      simp only [List.cons_append, leads_list, Bool.and_eq_true]
      exact ⟨hn.1, ih hn.2⟩

theorem sub_list_nil_needle (l : List Char) : sub_list [] l = true := by
  cases l <;> simp [sub_list, leads_list, List.isEmpty]

theorem sub_list_append {n h : List Char} (t : List Char)
    (hs : sub_list n h = true) : sub_list n (h ++ t) = true := by
  induction h with
  | nil =>
    cases n with
    | nil => simpa using sub_list_nil_needle t
    | cons c cs => simp [sub_list, List.isEmpty] at hs
  | cons d ds ih =>
    simp only [sub_list, Bool.or_eq_true] at hs
    simp only [List.cons_append, sub_list, Bool.or_eq_true]
    rcases hs with h1 | h2
    · exact Or.inl (by simpa using leads_list_append t (by simpa using h1))
    · exact Or.inr (ih h2)

theorem hasSubStr_append {s p : String} (q : String) (hs : hasSubStr s p = true) :
    hasSubStr (s ++ q) p = true := by
  unfold hasSubStr at hs ⊢
  rw [string_data_append]
  exact sub_list_append _ hs

theorem hasSubStr_lower_append {t pat : String} (p : String)
    (h : hasSubStr (lowerStr t) pat = true) :
    hasSubStr (lowerStr (t ++ p)) pat = true := by
  rw [lowerStr_append]
  exact hasSubStr_append _ h

/-! ## Scorer lemmas -/

theorem ite_le_ite_of_imp {b₁ b₂ : Bool} {c : Int} (hc : 0 ≤ c)
    (h : b₁ = true → b₂ = true) :
    (if b₁ = true then c else 0) ≤ (if b₂ = true then c else 0) := by
  cases b₁ with
  | false =>
    cases b₂ with
    | false => simp
    | true => simpa using hc
  | true => simp [h rfl]

theorem raw_relevance_score_append_mono (u t p : String)
    (hpen : ∀ q ∈ penalty_patterns,
      hasSubStr (lowerStr (t ++ p)) q = hasSubStr (lowerStr t) q) :
    raw_relevance_score u t ≤ raw_relevance_score u (t ++ p) := by
  unfold raw_relevance_score
  have hmono : ∀ pat : String, hasSubStr (lowerStr t) pat = true →
      hasSubStr (lowerStr (t ++ p)) pat = true := fun pat h =>
    hasSubStr_lower_append p h
  refine add_le_add (add_le_add (add_le_add (add_le_add (add_le_add (add_le_add
    ?_ ?_) le_rfl) le_rfl) le_rfl) ?_) ?_
  · refine List.sum_le_sum fun q _ => ?_
    exact add_le_add
      (by simpa using ite_le_ite_of_imp (by norm_num) (hmono q)) le_rfl
  · refine List.sum_le_sum fun q _ => ?_
    exact add_le_add
      (by simpa using ite_le_ite_of_imp (by norm_num) (hmono q)) le_rfl
  · refine le_of_eq ?_
    congr 1
    refine List.map_congr_left fun q hq => ?_
    rw [hpen q hq]
  · have hany : footer_indicators.any (fun q => hasSubStr (lowerStr t) q) = true →
        footer_indicators.any (fun q => hasSubStr (lowerStr (t ++ p)) q) = true := by
      intro h
      rcases List.any_eq_true.mp h with ⟨q, hq, hqq⟩
      exact List.any_eq_true.mpr ⟨q, hq, hmono q (by simpa using hqq)⟩
    simpa using ite_le_ite_of_imp (by norm_num) hany

/-- C7: the relevance score is a non-negative integer for every URL and
anchor text.  The claimed unconditional monotonicity under appending a
high-confidence phrase is refuted below; it does hold whenever the
appended phrase creates no new penalty-keyword occurrence in the text,
which is the amended statement proved here. -/
theorem C7_score_nonneg_and_append_mono :
    (∀ u t : String, 0 ≤ calculate_relevance_score u t) ∧
    (∀ u t p : String, p ∈ high_priority ++ french_high →
      (∀ q ∈ penalty_patterns,
        hasSubStr (lowerStr (t ++ p)) q = hasSubStr (lowerStr t) q) →
      calculate_relevance_score u t ≤ calculate_relevance_score u (t ++ p)) := by
  constructor
  · intro u t
    exact le_max_left 0 _
  · intro u t p _ hpen
    exact max_le_max le_rfl (raw_relevance_score_append_mono u t p hpen)

/-- C7 witness: the amended monotonicity applied at a concrete URL,
text and appended phrase. -/
theorem C7_witness :
    0 ≤ calculate_relevance_score "http://a.b/x" "x" ∧
    calculate_relevance_score "http://a.b/x" "x" ≤
      calculate_relevance_score "http://a.b/x" ("x" ++ "privacy policy") :=
  ⟨C7_score_nonneg_and_append_mono.1 "http://a.b/x" "x",
   C7_score_nonneg_and_append_mono.2 "http://a.b/x" "x" "privacy policy"
     (by decide) (by decide)⟩

/-- C7 counterexample: appending one more occurrence of the
high-confidence phrase "terms of service" to the anchor text
"terms of service contac" creates the penalty keyword "contact" across
the seam and drops the score from 150 to 130. -/
theorem C7_counterexample :
    "terms of service" ∈ high_priority ∧
    calculate_relevance_score "http://a.b/x"
        ("terms of service contac" ++ "terms of service") <
      calculate_relevance_score "http://a.b/x" "terms of service contac" := by
  constructor
  · decide
  · decide

/-! ## C1: the has_terms invariant of the orchestrator -/

/-- C1: for every input URL and every behaviour of the network, the
parser and the inner stages — success path, fetch-failure paths and
the exception path alike — the `TermsCheckResponse` returned by
`check_terms_exist` satisfies
`has_terms = (found_terms_pages.length > 0)`. -/
theorem C1_has_terms_iff_found_pages (url : String) (att : Nat → AttemptOutcome)
    (parse : String → List (String × String)) (follow : String → String)
    (probe : String → Option String) (exc : Option String) :
    (check_terms_exist url att parse follow probe exc).has_terms =
      decide (0 < (check_terms_exist url att parse follow probe exc).found_terms_pages.length) := by
  cases exc with
  | some e => rfl
  | none =>
    simp only [check_terms_exist]
    by_cases hh : (make_request_with_retry att url 2).2.1 = ""
    · rw [if_pos hh]
      cases hm : (make_request_with_retry att url 2).2.2 with
      | none => rfl
      | some e => rfl
    · rw [if_neg hh]

/-! ## C8: failure messages and the target URL -/

/-- C8 counterexample: two target URLs with the same registered domain
but different paths/query strings produce different user-visible
failure messages on the catch-all exception path of
`check_terms_exist`, whose message embeds the full input URL. -/
theorem C8_counterexample :
    netloc "http://ex.com/a?q=1" = netloc "http://ex.com/b" ∧
    (check_terms_exist "http://ex.com/a?q=1" demo_att demo_parse demo_follow demo_probe
        (some "boom")).error ≠
      (check_terms_exist "http://ex.com/b" demo_att demo_parse demo_follow demo_probe
        (some "boom")).error := by
  refine ⟨by decide, by decide⟩

/-- C8 amended: every failure message produced by the fetch-failure
classifier `_get_friendly_error_message` depends only on the netloc of
the target URL — same-domain URLs get identical messages for every
status code and error kind.  (The catch-all exception handler of
`check_terms_exist`, by contrast, embeds the full URL, as the
counterexample shows.) -/
theorem C8_classifier_message_depends_only_on_domain
    (u1 u2 : String) (status : Option Nat) (kind : ErrorKind)
    (h : netloc u1 = netloc u2) :
    get_friendly_error_message u1 status kind =
      get_friendly_error_message u2 status kind := by
  unfold get_friendly_error_message
  rw [h]

/-- C8 witness: the amended statement applied to two same-domain URLs
with a 403 status. -/
theorem C8_witness :
    get_friendly_error_message "http://ex.com/a?q=1" (some 403) .http =
      get_friendly_error_message "http://ex.com/b" (some 403) .http :=
  C8_classifier_message_depends_only_on_domain "http://ex.com/a?q=1" "http://ex.com/b"
    (some 403) .http (by decide)

/-! ## C6: the fetcher's retry policy -/

theorem run_attempts_spec (att : Nat → AttemptOutcome) (url : String) (retries : Nat) :
    ∀ fuel attempt, attempt ≤ retries → attempt + fuel = retries + 1 →
      run_attempts att url retries fuel attempt =
        classify_stop url (att (stop_from att retries fuel attempt)) ∧
      stop_from att retries fuel attempt ≤ retries ∧
      ∀ i, attempt ≤ i → i < stop_from att retries fuel attempt →
        retry_decision (att i) = true := by
  intro fuel
  induction fuel with
  | zero => intro attempt h1 h2; omega
  | succ f ih =>
    intro attempt h1 h2
    by_cases hret : retry_decision (att attempt) = true ∧ attempt < retries
    · -- the loop retries: outcome is 403/429/timeout and this is not the last attempt
      have hs : stop_from att retries (f + 1) attempt =
          stop_from att retries f (attempt + 1) := by
        simp [stop_from, hret.1, hret.2]
      have hrec := ih (attempt + 1) (by omega) (by omega)
      have hrun : run_attempts att url retries (f + 1) attempt =
          run_attempts att url retries f (attempt + 1) := by
        cases ha : att attempt with
        | success u b => rw [ha] at hret; simp [retry_decision] at hret
        | httpErr code =>
          rw [ha] at hret
          by_cases h403 : code = 403
          · subst h403
            simp [run_attempts, ha, Nat.ne_of_lt hret.2]
          · by_cases h429 : code = 429
            · subst h429
              simp [run_attempts, ha, hret.2]
            · simp [retry_decision, h403, h429] at hret
        | timeoutErr => simp [run_attempts, ha, hret.2]
        | connErr => rw [ha] at hret; simp [retry_decision] at hret
        | sslErr => rw [ha] at hret; simp [retry_decision] at hret
        | genericErr => rw [ha] at hret; simp [retry_decision] at hret
      refine ⟨by rw [hrun, hs]; exact hrec.1, by rw [hs]; exact hrec.2.1, ?_⟩
      intro i hi1 hi2
      rw [hs] at hi2
      rcases Nat.eq_or_lt_of_le hi1 with he | hlt
      · exact he ▸ hret.1
      · exact hrec.2.2 i hlt hi2
    · -- the loop stops here: the outcome is returned immediately
      have hs : stop_from att retries (f + 1) attempt = attempt := by
        rcases Decidable.not_and_iff_or_not.mp hret with hnd | hnl
        · simp [stop_from, Bool.eq_false_iff.mpr hnd]
        · have : ¬ (retry_decision (att attempt) && decide (attempt < retries)) = true := by
            simp [hnl]
          simp [stop_from, this]
      have hfin : retry_decision (att attempt) = true → attempt = retries := by
        intro hrd
        rcases Decidable.not_and_iff_or_not.mp hret with hnd | hnl
        · exact absurd hrd hnd
        · omega
      have hrun : run_attempts att url retries (f + 1) attempt =
          classify_stop url (att attempt) := by
        cases ha : att attempt with
        | success u b => simp [run_attempts, ha, classify_stop]
        | httpErr code =>
          by_cases h403 : code = 403
          · subst h403
            have heq := hfin (by rw [ha]; rfl)
            subst heq
            simp [run_attempts, ha, classify_stop]
          · by_cases h429 : code = 429
            · subst h429
              have heq := hfin (by rw [ha]; rfl)
              subst heq
              simp [run_attempts, ha, classify_stop]
            · simp [run_attempts, ha, h403, h429, classify_stop]
        | timeoutErr =>
          have heq := hfin (by rw [ha]; rfl)
          subst heq
          simp [run_attempts, ha, classify_stop]
        | connErr => simp [run_attempts, ha, classify_stop]
        | sslErr => simp [run_attempts, ha, classify_stop]
        | genericErr => simp [run_attempts, ha, classify_stop]
      refine ⟨by rw [hrun, hs], by omega, ?_⟩
      intro i hi1 hi2
      rw [hs] at hi2
      omega

/-- C6: the fetcher returns exactly the classification of the outcome
of its stopping attempt; the stopping attempt is within the retry
budget; and every earlier attempt had a retryable outcome (HTTP 403,
HTTP 429 or timeout) — so any other HTTP status, a connection error or
a generic error returns immediately on first occurrence, and a 403 on
the final attempt surfaces the 403 access-denied message (it is what
`classify_stop` yields there). -/
theorem C6_retry_policy (att : Nat → AttemptOutcome) (url : String) (retries : Nat) :
    make_request_with_retry att url retries =
      classify_stop url (att (stop_index att retries)) ∧
    stop_index att retries ≤ retries ∧
    ∀ i, i < stop_index att retries → retry_decision (att i) = true := by
  have h := run_attempts_spec att url retries (retries + 1) 0 (Nat.zero_le _) (by omega)
  exact ⟨h.1, h.2.1, fun i hi => h.2.2 i (Nat.zero_le _) hi⟩

/-- C6 witness: the characterization applied to the concrete oracle
whose first attempt is rate limited and whose second succeeds. -/
theorem C6_witness :
    make_request_with_retry demo_att "http://example.org/" 2 =
      classify_stop "http://example.org/" (demo_att (stop_index demo_att 2)) :=
  (C6_retry_policy demo_att "http://example.org/" 2).1

/-! ## C5: selection lemmas -/

theorem insert_scored_desc_length (x : Scored) (l : List Scored) :
    (insert_scored_desc x l).length = l.length + 1 := by
  induction l with
  | nil => rfl
  | cons y ys ih =>
    by_cases h : x.1 ≥ y.1
    · simp [insert_scored_desc, h]
    · simp [insert_scored_desc, h, ih]

theorem sort_scored_desc_length (l : List Scored) :
    (sort_scored_desc l).length = l.length := by
  induction l with
  | nil => rfl
  | cons x xs ih => simp [sort_scored_desc, insert_scored_desc_length, ih]

theorem sort_scored_desc_eq_nil_iff (l : List Scored) :
    sort_scored_desc l = [] ↔ l = [] := by
  constructor
  · intro h
    have hl := sort_scored_desc_length l
    rw [h] at hl
    exact List.length_eq_zero.mp hl.symm
  · intro h
    subst h
    rfl

theorem first_max_eq_none_iff (l : List Scored) : first_max l = none ↔ l = [] := by
  cases l with
  | nil => simp [first_max]
  | cons x xs =>
    constructor
    · intro h
      exfalso
      cases hf : first_max xs with
      | none =>
        simp only [first_max, hf] at h
        exact Option.noConfusion h
      | some m =>
        simp only [first_max, hf] at h
        by_cases hge : x.1 ≥ m.1
        · rw [if_pos hge] at h
          simp at h
        · rw [if_neg hge] at h
          simp at h
    · intro h
      simp at h

theorem sort_scored_desc_head (l : List Scored) :
    (sort_scored_desc l).head? = first_max l := by
  induction l with
  | nil => rfl
  | cons x xs ih =>
    cases hs : sort_scored_desc xs with
    | nil =>
      have hxs : xs = [] := (sort_scored_desc_eq_nil_iff xs).mp hs
      subst hxs
      rfl
    | cons y ys =>
      have hfm : first_max xs = some y := by
        rw [← ih, hs]
        rfl
      show (insert_scored_desc x (sort_scored_desc xs)).head? = first_max (x :: xs)
      rw [hs]
      simp only [first_max, hfm]
      by_cases hge : x.1 ≥ y.1
      · rw [if_pos hge]
        simp [insert_scored_desc, hge]
      · rw [if_neg hge]
        simp [insert_scored_desc, hge]

theorem first_max_spec (l : List Scored) (m : Scored) (h : first_max l = some m) :
    ∃ pre post, l = pre ++ m :: post ∧ (∀ y ∈ l, y.1 ≤ m.1) ∧ ∀ y ∈ pre, y.1 < m.1 := by
  induction l generalizing m with
  | nil => simp [first_max] at h
  | cons x xs ih =>
    cases hf : first_max xs with
    | none =>
      have hxs : xs = [] := (first_max_eq_none_iff xs).mp hf
      subst hxs
      simp only [first_max] at h
      obtain rfl : x = m := Option.some.inj h
      refine ⟨[], [], rfl, ?_, by simp⟩
      intro y hy
      rcases List.mem_singleton.mp hy with rfl
      exact le_refl _
    | some m' =>
      simp only [first_max, hf] at h
      by_cases hge : x.1 ≥ m'.1
      · rw [if_pos hge] at h
        obtain rfl : x = m := Option.some.inj h
        obtain ⟨pre, post, heq, hmax, hpre⟩ := ih m' hf
        refine ⟨[], xs, rfl, ?_, by simp⟩
        intro y hy
        rcases List.mem_cons.mp hy with rfl | hy'
        · exact le_refl _
        · exact le_trans (hmax y hy') hge
      · rw [if_neg hge] at h
        have hm := Option.some.inj h
        subst hm
        obtain ⟨pre, post, heq, hmax, hpre⟩ := ih m' hf
        refine ⟨x :: pre, post, by rw [heq]; rfl, ?_, ?_⟩
        · intro y hy
          rcases List.mem_cons.mp hy with rfl | hy'
          · exact le_of_lt (lt_of_not_ge hge)
          · exact hmax y hy'
        · intro y hy
          rcases List.mem_cons.mp hy with rfl | hy'
          · exact lt_of_not_ge hge
          · exact hpre y hy'

/-- C5: `_select_most_relevant_urls` returns at most one URL; it
returns none exactly when no candidate scores positively; and when it
returns a URL, that URL belongs to the earliest positively scored
candidate attaining the maximal score — zero-score candidates are
discarded and score ties are broken by first-seen order (hence, with
the extractor's internal-before-external ordering, ties favor internal
links).  The function is pure, so repeated calls on the same input
return the same result. -/
theorem C5_selection_spec (l : List (String × String)) :
    (select_most_relevant_urls l).length ≤ 1 ∧
    (select_most_relevant_urls l = [] ↔ scored_list l = []) ∧
    ∀ u, select_most_relevant_urls l = [u] →
      ∃ s t pre post, scored_list l = pre ++ (s, u, t) :: post ∧
        (∀ y ∈ scored_list l, y.1 ≤ s) ∧ ∀ y ∈ pre, y.1 < s := by
  cases l with
  | nil =>
    refine ⟨by decide, ⟨fun _ => rfl, fun _ => rfl⟩, ?_⟩
    intro u hu
    exact List.noConfusion hu
  | cons a as =>
    cases hs : sort_scored_desc (scored_list (a :: as)) with
    | nil =>
      have hsl : scored_list (a :: as) = [] := (sort_scored_desc_eq_nil_iff _).mp hs
      have hsel : select_most_relevant_urls (a :: as) = [] := by
        have he : select_most_relevant_urls (a :: as) =
            (match sort_scored_desc (scored_list (a :: as)) with
             | [] => ([] : List String)
             | (_, u, _) :: _ => [u]) := rfl
        rw [he, hs]
      refine ⟨by rw [hsel]; decide, by rw [hsel, hsl]; exact Iff.intro (fun _ => rfl) (fun _ => rfl), ?_⟩
      intro u hu
      rw [hsel] at hu
      exact List.noConfusion hu
    | cons b bs =>
      obtain ⟨bs0, bu, bt⟩ := b
      have hsel : select_most_relevant_urls (a :: as) = [bu] := by
        have he : select_most_relevant_urls (a :: as) =
            (match sort_scored_desc (scored_list (a :: as)) with
             | [] => ([] : List String)
             | (_, u, _) :: _ => [u]) := rfl
        rw [he, hs]
      have hhead : first_max (scored_list (a :: as)) = some (bs0, bu, bt) := by
        rw [← sort_scored_desc_head, hs]
        rfl
      obtain ⟨pre, post, heq, hmax, hpre⟩ := first_max_spec _ _ hhead
      refine ⟨by rw [hsel]; exact Nat.le_refl 1, ?_, ?_⟩
      · constructor
        · intro h
          rw [hsel] at h
          exact List.noConfusion h
        · intro h
          rw [h] at heq
          exact List.noConfusion (List.append_eq_nil.mp heq.symm).2
      · intro u hu
        rw [hsel] at hu
        have hub : bu = u := List.cons_eq_cons.mp hu |>.1
        subst hub
        exact ⟨bs0, bt, pre, post, heq, hmax, hpre⟩

set_option maxHeartbeats 2000000 in
/-- C5 witness: the selection contract applied to a concrete candidate
list where the penalized candidate is discarded and the privacy link
wins. -/
theorem C5_witness :
    (select_most_relevant_urls demo_selection).length ≤ 1 ∧
    select_most_relevant_urls demo_selection = ["http://a.b/privacy"] :=
  ⟨(C5_selection_spec demo_selection).1, by decide⟩

/-! ## C4: extractor lemmas -/

theorem candidate_of_eq_some_iff {base : String} {a c : String × String} :
    candidate_of base a = some c ↔
      a.1 ≠ "" ∧ scheme_ok (urljoin base a.1) = true ∧ is_terms_link a.2 a.1 = true ∧
        c = (urljoin base a.1, a.2) := by
  rcases a with ⟨href, text⟩
  unfold candidate_of
  by_cases h1 : href = ""
  · simp [h1]
  · by_cases h2 : scheme_ok (urljoin base href) = true
    · by_cases h3 : is_terms_link text href = true
      · simp [h1, h2, h3, eq_comm]
      · simp [h1, h2, h3]
    · simp [h1, h2]

theorem mem_extract_candidates_iff {base : String} {anchors : List (String × String)}
    {u t : String} :
    (u, t) ∈ extract_candidates base anchors ↔
      ∃ h, (h, t) ∈ anchors ∧ h ≠ "" ∧ urljoin base h = u ∧
        scheme_ok u = true ∧ is_terms_link t h = true := by
  unfold extract_candidates
  constructor
  · intro hm
    have hc : (u, t) ∈ anchors.filterMap (candidate_of base) := by
      rcases List.mem_append.mp hm with hm' | hm'
      · exact (List.mem_filter.mp hm').1
      · exact (List.mem_filter.mp hm').1
    rcases List.mem_filterMap.mp hc with ⟨a, ha, hca⟩
    obtain ⟨h1, h2, h3, h4⟩ := candidate_of_eq_some_iff.mp hca
    obtain ⟨hu, ht⟩ := Prod.mk.injEq .. |>.mp h4
    refine ⟨a.1, ?_, h1, hu.symm, hu ▸ h2, ht ▸ h3⟩
    have : (a.1, t) = a := by
      rw [ht]
    rw [this]
    exact ha
  · rintro ⟨h, hmem, hne, hju, hok, htl⟩
    have hc : (u, t) ∈ anchors.filterMap (candidate_of base) := by
      refine List.mem_filterMap.mpr ⟨(h, t), hmem, ?_⟩
      refine candidate_of_eq_some_iff.mpr ⟨hne, ?_, htl, ?_⟩
      · rw [hju]
        exact hok
      · rw [hju]
    by_cases hd : (lowerStr (netloc u) == lowerStr (netloc base)) = true
    · exact List.mem_append.mpr (Or.inl (List.mem_filter.mpr ⟨hc, hd⟩))
    · refine List.mem_append.mpr (Or.inr (List.mem_filter.mpr ⟨hc, ?_⟩))
      simp only [Bool.not_eq_true'] at hd ⊢
      exact Bool.not_eq_true _ |>.mp hd

theorem extract_candidates_scheme_ok {base : String} {anchors : List (String × String)}
    {c : String × String} (hc : c ∈ extract_candidates base anchors) :
    scheme_ok c.1 = true := by
  rcases c with ⟨u, t⟩
  obtain ⟨h, _, _, _, hok, _⟩ := mem_extract_candidates_iff.mp hc
  exact hok

theorem scheme_ok_ne_empty {u : String} (h : scheme_ok u = true) : u ≠ "" := by
  intro he
  subst he
  exact absurd h (by decide)

theorem follow_terms_link_ne_empty (follow : String → String) {u : String} (hu : u ≠ "") :
    follow_terms_link follow u ≠ "" := by
  show (if follow u ≠ "" then follow u else u) ≠ ""
  split
  · next hf => exact hf
  · next => exact hu

/-- C4 amended: a pair `(u, t)` is produced by the extractor exactly
when some anchor `(h, t)` of the page has a non-empty href `h`
resolving to the http(s) URL `u` and matches the extractor's actual
vocabulary test `is_terms_link` — thirteen patterns (terms, condition,
privacy, policy, legal, agreement, données, confidentialité, mentions,
cookies, politique, cgv, cgu), applied case-insensitively to the
visible text or to the raw (unresolved) href.  The spec's four extra
terms (protection, accord, utilisation, juridique) are not matched,
as the counterexample shows. -/
theorem C4_candidate_characterization {base : String}
    {anchors : List (String × String)} {u t : String} :
    (u, t) ∈ extract_candidates base anchors ↔
      ∃ h, (h, t) ∈ anchors ∧ h ≠ "" ∧ urljoin base h = u ∧
        scheme_ok u = true ∧ is_terms_link t h = true :=
  mem_extract_candidates_iff

/-- C4 witness: the characterization applied to a concrete page with a
single privacy anchor. -/
theorem C4_witness :
    ("http://example.org/privacy", "Privacy") ∈
      extract_candidates "http://example.org/" [("/privacy", "Privacy")] :=
  C4_candidate_characterization.mpr
    ⟨"/privacy", by decide, by decide, by decide, by decide, by decide⟩

/-- C4 counterexample: the anchor text "protection" is in the claim's
vocabulary, so the claim classifies the link as a candidate, but the
extractor's vocabulary does not contain it and drops the anchor. -/
theorem C4_counterexample :
    claim_is_candidate "http://example.org/" "protection" "/p" = true ∧
    extract_candidates "http://example.org/" [("/p", "protection")] = [] :=
  ⟨by decide, by decide⟩

/-! ## C3: when the fallback prober runs -/

/-- C3 amended: fallback probing runs exactly when the extractor
yields zero candidates — before any scoring.  When extraction is
empty, the discovery result is the selection over the probed URLs;
when any candidate is extracted (even one that scores zero), the
result does not depend on the prober at all. -/
theorem C3_fallback_iff_no_candidates (base html : String)
    (parse : String → List (String × String)) (follow : String → String)
    (probe probe' : String → Option String) :
    (extract_candidates base (parse html) = [] →
      find_terms_links base html parse follow probe =
        select_most_relevant_urls (try_common_terms_urls probe base)) ∧
    (extract_candidates base (parse html) ≠ [] →
      find_terms_links base html parse follow probe =
        find_terms_links base html parse follow probe') := by
  constructor
  · intro hemp
    unfold find_terms_links
    rw [hemp]
    rfl
  · intro hne
    unfold find_terms_links
    cases hc : extract_candidates base (parse html) with
    | nil => exact absurd hc hne
    | cons c0 rest =>
      have hok : scheme_ok c0.1 = true :=
        extract_candidates_scheme_ok (hc ▸ List.mem_cons_self c0 rest)
      have hftl : follow_terms_link follow c0.1 ≠ "" :=
        follow_terms_link_ne_empty follow (scheme_ok_ne_empty hok)
      simp [List.filterMap_cons, hftl]

/-- C3 witness: with one extracted (zero-scoring) candidate present,
the discovery result is the same under a prober that would find pages
and under a prober that finds nothing. -/
theorem C3_witness :
    find_terms_links "http://example.org/" "x" demo_parse demo_follow demo_probe =
      find_terms_links "http://example.org/" "x" demo_parse demo_follow (fun _ => none) :=
  (C3_fallback_iff_no_candidates "http://example.org/" "x" demo_parse demo_follow
    demo_probe (fun _ => none)).2 (by decide)

set_option maxHeartbeats 2000000 in
/-- C3 counterexample: the page's only anchor matches the extractor
vocabulary but scores zero, so per the claim the prober should still
run — yet discovery returns the empty result, although probing alone
would have produced a selected URL. -/
theorem C3_counterexample :
    extract_candidates "http://example.org/" (demo_parse "<html>") =
      [("http://example.org/x", "condition")] ∧
    calculate_relevance_score "http://example.org/x" "condition" = 0 ∧
    find_terms_links "http://example.org/" "<html>" demo_parse demo_follow demo_probe = [] ∧
    select_most_relevant_urls (try_common_terms_urls demo_probe "http://example.org/") =
      ["http://example.org/terms"] := by
  refine ⟨by decide, by decide, by decide, by decide⟩

/-! ## C2: upsert semantics of save_analysis -/

theorem max_analysis_id_cons (d : CacheDoc) (ds : List CacheDoc) :
    max_analysis_id (d :: ds) = max d.analysis_id (max_analysis_id ds) := rfl

theorem le_max_analysis_id {store : List CacheDoc} {d : CacheDoc} (hd : d ∈ store) :
    d.analysis_id ≤ max_analysis_id store := by
  induction store with
  | nil => exact absurd hd (List.not_mem_nil d)
  | cons x xs ih =>
    rw [max_analysis_id_cons]
    rcases List.mem_cons.mp hd with rfl | h
    · exact Nat.le_max_left _ _
    · exact le_trans (ih h) (Nat.le_max_right _ _)

theorem next_analysis_id_cons (x : CacheDoc) (xs : List CacheDoc) :
    next_analysis_id (x :: xs) = max_analysis_id (x :: xs) + 1 := rfl

theorem replace_one_mem (store : List CacheDoc) (url : String) (doc : CacheDoc) :
    doc ∈ replace_one store url doc := by
  induction store with
  | nil => exact List.mem_singleton.mpr rfl
  | cons d ds ih =>
    by_cases h : d.url = url
    · simp [replace_one, h]
    · simp only [replace_one, if_neg h]
      exact List.mem_cons_of_mem d ih

theorem countP_cons_true {p : CacheDoc → Bool} {d : CacheDoc} (ds : List CacheDoc)
    (h : p d = true) : (d :: ds).countP p = ds.countP p + 1 := by
  simp [List.countP_cons, h]

theorem countP_cons_false {p : CacheDoc → Bool} {d : CacheDoc} (ds : List CacheDoc)
    (h : p d = false) : (d :: ds).countP p = ds.countP p := by
  simp [List.countP_cons, h]

theorem replace_one_countP {store : List CacheDoc} {url : String} {doc : CacheDoc}
    (hdoc : doc.url = url)
    (hcount : store.countP (fun x => x.url == url) = 1) :
    (replace_one store url doc).countP (fun x => x.url == url) = 1 := by
  induction store with
  | nil => simp at hcount
  | cons d ds ih =>
    by_cases h : d.url = url
    · rw [countP_cons_true ds (by simp [h])] at hcount
      have h0 : ds.countP (fun x => x.url == url) = 0 := by omega
      simp only [replace_one, if_pos h]
      rw [countP_cons_true ds (by simp [hdoc]), h0]
    · rw [countP_cons_false ds (by simp [h])] at hcount
      simp only [replace_one, if_neg h]
      rw [countP_cons_false _ (by simp [h])]
      exact ih hcount

/-- C2 amended: upserting a URL that already has a (unique) cached
document leaves exactly one live document for the key and refreshes
`created_at` to now and `expires_at` to now plus the 90-day TTL — but
it does NOT keep the original sequential id: the saved document
carries `max_analysis_id store + 1`, strictly greater than the id of
the replaced document. -/
theorem C2_upsert_replaces_and_reallocates
    (store : List CacheDoc) (now : Int) (url payload : String) (d : CacheDoc)
    (hmem : d ∈ store) (hurl : d.url = url)
    (hcount : store.countP (fun x => x.url == url) = 1) :
    (save_analysis store now url payload).countP (fun x => x.url == url) = 1 ∧
    ∃ d' ∈ save_analysis store now url payload, d'.url = url ∧
      d'.created_at = now ∧ d'.expires_at = now + ttl_seconds ∧
      d'.analysis_id = max_analysis_id store + 1 ∧
      d.analysis_id < d'.analysis_id := by
  cases store with
  | nil => exact absurd hmem (List.not_mem_nil d)
  | cons x xs =>
    constructor
    · exact replace_one_countP rfl hcount
    · refine ⟨⟨url, next_analysis_id (x :: xs), now, now + ttl_seconds, payload⟩,
        replace_one_mem _ _ _, rfl, rfl, rfl, next_analysis_id_cons x xs, ?_⟩
      show d.analysis_id < next_analysis_id (x :: xs)
      rw [next_analysis_id_cons]
      exact Nat.lt_succ_of_le (le_max_analysis_id hmem)

/-- C2 witness: the amended statement applied to the one-document
store re-upserted at instant 100. -/
theorem C2_witness :
    (save_analysis demo_store_save 100 "u" "q").countP (fun x => x.url == "u") = 1 :=
  (C2_upsert_replaces_and_reallocates demo_store_save 100 "u" "q"
    ⟨"u", 1, 0, 7776000, "p"⟩ (by decide) (by decide) (by decide)).1

/-- C2 counterexample: the cached document for "u" holds sequential id
1; re-upserting the same URL produces a document with sequential id 2
(with refreshed timestamps), so the id allocated at first insertion is
not preserved. -/
theorem C2_counterexample :
    (demo_store_save.map fun d => d.analysis_id) = [1] ∧
    save_analysis demo_store_save 100 "u" "q" =
      [⟨"u", 2, 100, 100 + ttl_seconds, "q"⟩] :=
  ⟨by decide, by decide⟩

/-! ## C9: sweep versus statistics -/

theorem countP_not_add (p : CacheDoc → Bool) (l : List CacheDoc) :
    l.countP p + l.countP (fun d => !p d) = l.length := by
  induction l with
  | nil => rfl
  | cons d ds ih =>
    cases h : p d
    · rw [countP_cons_false ds h, countP_cons_true ds (by simp [h]), List.length_cons]
      omega
    · rw [countP_cons_true ds h, countP_cons_false ds (by simp [h]), List.length_cons]
      omega

theorem sweep_survivors_split (now : Int) (store : List CacheDoc) :
    (store.filter (fun d => !decide (d.expires_at < now))).length =
      (store.filter (fun d => !decide (d.expires_at < now))).countP
          (fun d => decide (now < d.expires_at)) +
      (store.filter (fun d => !decide (d.expires_at < now))).countP
          (fun d => decide (d.expires_at = now)) := by
  induction store with
  | nil => rfl
  | cons d ds ih =>
    rcases lt_trichotomy d.expires_at now with h | h | h
    · rw [List.filter_cons, if_neg (by simp [h])]
      exact ih
    · rw [List.filter_cons, if_pos (by simp [h])]
      rw [List.length_cons,
        countP_cons_false _ (by simp [h]),
        countP_cons_true _ (by simp [h])]
      omega
    · rw [List.filter_cons, if_pos (by simp [le_of_lt h, not_lt])]
      rw [List.length_cons,
        countP_cons_true _ (by simp [h]),
        countP_cons_false _ (by simp [ne_of_gt h])]
      omega

/-- C9 amended: the sweep deletes exactly the entries whose
`expires_at` is strictly in the past, while the statistics count as
expired everything not strictly in the future.  Immediately after
`clear_expired_cache` at instant `now`, the reported expired count
equals the number of surviving entries expiring exactly at `now` — so
it is zero (and total equals valid) whenever no entry expires at the
sweep instant, but not in general.  Deleted count plus survivors
always re-add to the original total. -/
theorem C9_sweep_stats (store : List CacheDoc) (now : Int) :
    (get_cache_stats (clear_expired_cache store now).1 now).expired_entries =
      (clear_expired_cache store now).1.countP (fun d => decide (d.expires_at = now)) ∧
    ((∀ d ∈ store, d.expires_at ≠ now) →
      (get_cache_stats (clear_expired_cache store now).1 now).expired_entries = 0 ∧
      (get_cache_stats (clear_expired_cache store now).1 now).total_entries =
        (get_cache_stats (clear_expired_cache store now).1 now).valid_entries) ∧
    (clear_expired_cache store now).2 + (clear_expired_cache store now).1.length =
      store.length := by
  have hsplit := sweep_survivors_split now store
  have hvle := List.countP_le_length
    (p := fun d => decide (now < d.expires_at))
    (l := store.filter (fun d => !decide (d.expires_at < now)))
  refine ⟨?_, ?_, ?_⟩
  · show (store.filter (fun d => !decide (d.expires_at < now))).length -
        (store.filter (fun d => !decide (d.expires_at < now))).countP
          (fun d => decide (now < d.expires_at)) =
      (store.filter (fun d => !decide (d.expires_at < now))).countP
          (fun d => decide (d.expires_at = now))
    omega
  · intro hnb
    have hz : (store.filter (fun d => !decide (d.expires_at < now))).countP
        (fun d => decide (d.expires_at = now)) = 0 := by
      refine List.countP_eq_zero.mpr ?_
      intro d hd
      have hds : d ∈ store := (List.mem_filter.mp hd).1
      simp [hnb d hds]
    constructor
    · show (store.filter (fun d => !decide (d.expires_at < now))).length -
          (store.filter (fun d => !decide (d.expires_at < now))).countP
            (fun d => decide (now < d.expires_at)) = 0
      omega
    · show (store.filter (fun d => !decide (d.expires_at < now))).length =
          (store.filter (fun d => !decide (d.expires_at < now))).countP
            (fun d => decide (now < d.expires_at))
      omega
  · show store.countP (fun d => decide (d.expires_at < now)) +
        (store.filter (fun d => !decide (d.expires_at < now))).length = store.length
    rw [← List.countP_eq_length_filter]
    exact countP_not_add _ store

/-- C9 witness: after sweeping a store whose only entry is strictly
expired, the statistics report zero expired entries and total equals
valid. -/
theorem C9_witness :
    (get_cache_stats (clear_expired_cache demo_store_sweep_ok 100).1 100).expired_entries = 0 ∧
    (get_cache_stats (clear_expired_cache demo_store_sweep_ok 100).1 100).total_entries =
      (get_cache_stats (clear_expired_cache demo_store_sweep_ok 100).1 100).valid_entries :=
  (C9_sweep_stats demo_store_sweep_ok 100).2.1 (by decide)

/-- C9 counterexample: a store whose single entry expires exactly at
the sweep instant — the sweep deletes nothing, yet immediately
afterwards the statistics report one expired entry and total differs
from valid. -/
theorem C9_counterexample :
    (clear_expired_cache demo_store_sweep 100).2 = 0 ∧
    (get_cache_stats (clear_expired_cache demo_store_sweep 100).1 100).expired_entries = 1 ∧
    (get_cache_stats (clear_expired_cache demo_store_sweep 100).1 100).total_entries ≠
      (get_cache_stats (clear_expired_cache demo_store_sweep 100).1 100).valid_entries :=
  ⟨by decide, by decide, by decide⟩

/-! ## C10: the expiry boundary -/

/-- C10: a cache entry whose `expires_at` equals the current instant
exactly is invisible to `get_cached_analysis` (which requires
`expires_at` strictly greater than now) while `get_cache_info` still
reports it as cached and NOT expired (expired requires `expires_at`
strictly less than now): at the boundary the entry is simultaneously
not valid and not expired. -/
theorem C10_expiry_boundary
    (store : List CacheDoc) (now : Int) (url : String) (d : CacheDoc)
    (hfind : store.find? (fun x => x.url == url) = some d)
    (hexp : d.expires_at = now)
    (huniq : ∀ x ∈ store, x.url = url → x = d) :
    get_cached_analysis store now url = none ∧
    (get_cache_info store now url).cached = true ∧
    (get_cache_info store now url).expired = false := by
  refine ⟨?_, ?_, ?_⟩
  · apply List.find?_eq_none.mpr
    intro x hx
    by_cases hxu : x.url = url
    · have hxd := huniq x hx hxu
      subst hxd
      simp [hexp]
    · simp [hxu]
  · unfold get_cache_info
    rw [hfind]
  · unfold get_cache_info
    rw [hfind]
    simp [hexp]

/-- C10 witness: the boundary behaviour at the concrete one-entry
store whose document expires exactly at instant 50. -/
theorem C10_witness :
    get_cached_analysis demo_store_boundary 50 "u" = none ∧
    (get_cache_info demo_store_boundary 50 "u").cached = true ∧
    (get_cache_info demo_store_boundary 50 "u").expired = false :=
  C10_expiry_boundary demo_store_boundary 50 "u" ⟨"u", 1, 0, 50, "p"⟩
    (by decide) (by decide) (by decide)
